import Mathlib

/-!
Verification of the Autonomous Email Engine
(src/backend/services/autonomous-email-engine.js).

The engine is embedded shallowly: the Supabase tables, the Resend provider
and the engine's in-memory counters become one explicit `EngineState`
record, timestamps become natural numbers (milliseconds since epoch, each
handler receiving the current time as a parameter), and the provider is an
oracle `Nat → ProviderResult` consulted at a running send counter.
JavaScript floating-point arithmetic on timestamp differences is modelled
by exact integer arithmetic; for the hour comparisons performed by the
sequencer the two agree, since the compared quantities are multiples of
1/3600000, far coarser than double rounding error.
-/

/- ===================== String helpers (JS semantics) ===================== -/

/-- The JavaScript whitespace class used by `\s`, `String.prototype.trim`
(restricted to the code points that can occur in this code base). -/
def jsWhitespace (c : Char) : Bool :=
  c == ' ' || c == '\t' || c == '\n' || c == '\r' ||
  c == '\x0b' || c == '\x0c' || c.toNat == 160 || c.toNat == 0xfeff

/-- Drop leading and trailing JS whitespace from a character list. -/
def jsTrimList (l : List Char) : List Char :=
  ((l.dropWhile jsWhitespace).reverse.dropWhile jsWhitespace).reverse

/-- `String.prototype.trim`. -/
def jsTrim (s : String) : String :=
  String.mk (jsTrimList s.data)

/-- `String.prototype.toLowerCase` (ASCII range, which is all the engine uses). -/
def lowerStr (s : String) : String :=
  String.mk (s.data.map Char.toLower)

/-- Substring test on character lists: does `p` occur inside `s`?
(`String.prototype.includes`.) -/
def listContains (p : List Char) : List Char → Bool
  | [] => p.isPrefixOf []
  | c :: rest => p.isPrefixOf (c :: rest) || listContains p rest

/-- `s.includes(pat)`. -/
def strContains (s pat : String) : Bool :=
  listContains pat.data s.data

/-- Replace the first occurrence of `pat` (a non-empty literal) in `s`,
as `String.prototype.replace` with a string pattern does. -/
def replaceFirstList (pat repl : List Char) : List Char → List Char
  | [] => []
  | c :: rest =>
    if pat.isPrefixOf (c :: rest) then repl ++ (c :: rest).drop pat.length
    else c :: replaceFirstList pat repl rest

/-- `s.replace(pat, repl)` for a string pattern (first occurrence only). -/
def replaceFirst (s pat repl : String) : String :=
  String.mk (replaceFirstList pat.data repl.data s.data)

/-- Case-insensitive "the pattern is a prefix of the suffix" test, used to
model the `i` flag of the reply-cleaning regexes. -/
def ciStarts : List Char → List Char → Bool
  | [], _ => true
  | _ :: _, [] => false
  | p :: ps, c :: cs => (p.toLower == c.toLower) && ciStarts ps cs

/- ===================== cleanReplyText ===================== -/

/-- Scan for `.* wrote:` (case-insensitive, `.` not matching a newline):
succeeds when a literal " wrote:" occurs before the next newline. -/
def wroteScan : List Char → Bool
  | [] => false
  | c :: r => ciStarts " wrote:".data (c :: r) || (c != '\n' && wroteScan r)

/-- Does the regex `/On .* wrote:/i` match at the head of this suffix? -/
def onWroteSuffix (s : List Char) : Bool :=
  ciStarts "On ".data s && wroteScan (s.drop 3)

/-- Drop up to and including the first newline (the only way `.*\n` of the
header-block regex can cross a line). -/
def afterLine : List Char → Option (List Char)
  | [] => none
  | c :: r => if c == '\n' then some r else afterLine r

/-- Does `/From:.*\nSent:.*\nTo:.*\nSubject:.*/i` match at the head of this
suffix? -/
def headerBlockSuffix (s : List Char) : Bool :=
  ciStarts "From:".data s &&
  match afterLine (s.drop 5) with
  | none => false
  | some t2 =>
    ciStarts "Sent:".data t2 &&
    match afterLine (t2.drop 5) with
    | none => false
    | some t3 =>
      ciStarts "To:".data t3 &&
      match afterLine (t3.drop 3) with
      | none => false
      | some t4 => ciStarts "Subject:".data t4

/-- Does `/_{5,}/` match at the head of this suffix? -/
def underscoresSuffix (s : List Char) : Bool :=
  "_____".data.isPrefixOf s

/-- Does the run-of-five-or-more-hyphens regex match at the head of this
suffix? -/
def hyphensSuffix (s : List Char) : Bool :=
  "-----".data.isPrefixOf s

/-- Does `/>{1,}.*/m` match at the head of this suffix? (Any `'>'`
character starts a match; the regex is not anchored to line starts.) -/
def gtSuffix : List Char → Bool
  | [] => false
  | c :: _ => c == '>'

/-- Does `/\n\n>.*$/s` match at the head of this suffix? -/
def nnGtSuffix (s : List Char) : Bool :=
  "\n\n>".data.isPrefixOf s

/-- Index of the leftmost position whose suffix satisfies `p`
(`String.prototype.search`; none of the cleaning regexes can match an
empty suffix). -/
def searchIdx (p : List Char → Bool) : List Char → Option Nat
  | [] => none
  | c :: rest => if p (c :: rest) then some 0 else (searchIdx p rest).map (· + 1)

/-- One pass of the cleaning loop: truncate at the first match of a
pattern, but only when the match index is strictly positive
(`if (match > 0)` in the source). -/
def truncAtPat (s : List Char) (p : List Char → Bool) : List Char :=
  match searchIdx p s with
  | some m => if 0 < m then s.take m else s
  | none => s

/-- The cleaning patterns, in the order the source applies them. -/
def cleanPatterns : List (List Char → Bool) :=
  [onWroteSuffix, headerBlockSuffix, underscoresSuffix, hyphensSuffix,
   gtSuffix, nnGtSuffix]

/-- `cleanReplyText`: strip quoted reply content by sequentially truncating
at each pattern's first (positive-index) match, then trim. -/
def cleanReplyText (text : String) : String :=
  if text == "" then ""
  else String.mk (jsTrimList (cleanPatterns.foldl truncAtPat text.data))

/-- Modelled from the spec: the boundary-marker description of quoted-text
stripping in §4.4/§8 — a *line beginning* "On ... wrote:", a
`From:/Sent:/To:/Subject:` header block, a run of ≥5 `_` or `-`, or a
*line beginning* with `>`; everything at or after the earliest matched
boundary is discarded (earliest-match wins), then the result is trimmed. -/
def specBoundaryAt (prev : Option Char) (s : List Char) : Bool :=
  let atLineStart := prev == none || prev == some '\n'
  (atLineStart && onWroteSuffix s) || (atLineStart && headerBlockSuffix s) ||
  underscoresSuffix s || hyphensSuffix s || (atLineStart && gtSuffix s)

/-- Modelled from the spec: leftmost spec boundary index, tracking the
previous character to decide line starts. -/
def specSearch (prev : Option Char) : List Char → Option Nat
  | [] => none
  | c :: rest =>
    if specBoundaryAt prev (c :: rest) then some 0
    else (specSearch (some c) rest).map (· + 1)

/-- Modelled from the spec: discard everything at or after the earliest
boundary, then trim. -/
def cleanReplySpec (text : String) : String :=
  match specSearch none text.data with
  | some m => String.mk (jsTrimList (text.data.take m))
  | none => String.mk (jsTrimList text.data)

/- ===================== Data model ===================== -/

/-- One row of the `outreach_campaigns` table (the fields the engine
reads or writes). Timestamps are milliseconds since epoch; nullable
columns are `Option`; ids are the UUID strings Supabase uses. -/
structure Campaign where
  id : String := ""
  recipient_email : String := ""
  contact_name : Option String := none
  company_name : String := ""
  subject : Option String := none
  status : String := "draft"
  created_at : Nat := 0
  updated_at : Option Nat := none
  sent_at : Option Nat := none
  delivered_at : Option Nat := none
  opened_at : Option Nat := none
  clicked_at : Option Nat := none
  replied_at : Option Nat := none
  bounced_at : Option Nat := none
  unsubscribed_at : Option Nat := none
  last_followup_at : Option Nat := none
  calendly_clicked_at : Option Nat := none
  booking_email_sent_at : Option Nat := none
  retry_scheduled_at : Option Nat := none
  flagged_at : Option Nat := none
  open_count : Nat := 0
  click_count : Nat := 0
  followup_count : Nat := 0
  bounce_reason : Option String := none
  unsubscribe_reason : Option String := none
  last_reply_text : Option String := none
  needs_review : Bool := false
  review_reason : Option String := none
  resend_email_id : Option String := none
  deriving Repr, DecidableEq

/-- One row of the append-only `email_conversations` table. -/
structure ConversationRow where
  campaign_id : String
  direction : String
  message_type : String
  subject : String
  message_content : String
  sent_at : Nat
  deriving Repr, DecidableEq

/-- One row of the append-only `email_engagement` table. -/
structure EngagementRow where
  campaign_id : String
  event_type : String
  meta : List (String × String)
  created_at : Nat
  deriving Repr, DecidableEq

/-- One row of the `email_blocklist` table (upserted on `email`). -/
structure BlockRow where
  email : String
  reason : String
  details : Option String
  created_at : Nat
  deriving Repr, DecidableEq

/-- A call actually handed to the Resend provider (`resend.emails.send`).
`toAddr` is the `to` field of the call (`to` is reserved in Lean). -/
structure ProviderCall where
  toAddr : String
  subject : String
  campaignId : Option String
  deriving Repr, DecidableEq

/-- The engine's in-memory counters (`this.stats`). -/
structure Stats where
  emailsSent : Nat := 0
  repliesProcessed : Nat := 0
  bookingsTriggered : Nat := 0
  followUpsSent : Nat := 0
  deriving Repr, DecidableEq

/-- The whole mutable world the engine touches: the four tables, the log
of provider calls, a counter indexing those calls into the provider
oracle, and the in-memory stats. -/
structure EngineState where
  campaigns : List Campaign := []
  conversations : List ConversationRow := []
  engagement : List EngagementRow := []
  blocklist : List BlockRow := []
  providerCalls : List ProviderCall := []
  sendSeq : Nat := 0
  stats : Stats := {}
  deriving Repr, DecidableEq

/-- Outcome of one provider call, chosen by the environment. -/
inductive ProviderResult where
  | ok (emailId : String)
  | err (msg : String)
  deriving Repr, DecidableEq

/-- The structured result `sendEmail` returns. -/
inductive SendResult where
  | blocked
  | sent (emailId : String)
  | failed (msg : String)
  deriving Repr, DecidableEq

/-- Engine configuration constants (the environment-variable defaults in
the constructor). -/
def trackingBaseUrl : String := "https://web-production-486cb.up.railway.app"

def calendlyLink : String := "https://calendly.com/maggieforbes/discovery"

def senderName : String := "Maggie Forbes"

/-- One step of the follow-up sequence configuration. -/
structure SequenceStep where
  delay : Nat
  type : String
  subject : String
  deriving Repr, DecidableEq

/-- `this.defaultSequence`: cumulative delays in hours from the initial
send. -/
def defaultSequence : List SequenceStep :=
  [⟨72, "follow_up_1", "Quick follow-up"⟩,
   ⟨168, "follow_up_2", "One more thought"⟩,
   ⟨336, "follow_up_final", "Last note"⟩]

/- ===================== Shared DB helpers ===================== -/

/-- `updateCampaign`: apply the call site's field updates to every row
with the given id, always also stamping `updated_at`. -/
def updateCampaign (st : EngineState) (now : Nat) (cid : String)
    (f : Campaign → Campaign) : EngineState :=
  { st with campaigns := st.campaigns.map fun r =>
      if r.id == cid then { f r with updated_at := some now } else r }

/-- `logEngagement`: append one row to `email_engagement`. -/
def logEngagement (st : EngineState) (now : Nat) (cid : String)
    (eventType : String) (meta : List (String × String)) : EngineState :=
  { st with engagement := st.engagement ++ [⟨cid, eventType, meta, now⟩] }

/-- `storeOutgoingEmail`: append one outgoing row to `email_conversations`. -/
def storeOutgoingEmail (st : EngineState) (now : Nat) (cid : String)
    (subject body typ : String) : EngineState :=
  { st with conversations :=
      st.conversations ++ [⟨cid, "outgoing", typ, subject, body, now⟩] }

/-- `isEmailBlocked`: any blocklist row keyed by the lower-cased email. -/
def isEmailBlocked (st : EngineState) (email : String) : Bool :=
  st.blocklist.any fun b => b.email == lowerStr email

/-- The common upsert behind `addToBounceList` / `addToUnsubscribeList`
(`onConflict: 'email'`: the latest write replaces the row's fields). -/
def upsertBlocklist (st : EngineState) (now : Nat) (email reason : String)
    (details : Option String) : EngineState :=
  let e := lowerStr email
  if st.blocklist.any fun b => b.email == e then
    { st with blocklist := st.blocklist.map fun b =>
        if b.email == e then ⟨e, reason, details, now⟩ else b }
  else
    { st with blocklist := st.blocklist ++ [⟨e, reason, details, now⟩] }

/-- `addToBounceList`. -/
def addToBounceList (st : EngineState) (now : Nat) (email : String)
    (reason : Option String) : EngineState :=
  upsertBlocklist st now email "bounce" reason

/-- `addToUnsubscribeList`. -/
def addToUnsubscribeList (st : EngineState) (now : Nat) (email reason : String) :
    EngineState :=
  upsertBlocklist st now email "unsubscribe" (some reason)

/-- `findCampaignByEmail`: the most recently created campaign whose
`recipient_email` equals the normalized address (`order by created_at
desc limit 1`). -/
def pickLatest (best : Option Campaign) (c : Campaign) : Option Campaign :=
  match best with
  | none => some c
  | some b => if c.created_at > b.created_at then some c else some b

def findCampaignByEmail (st : EngineState) (email : String) : Option Campaign :=
  (st.campaigns.filter fun c =>
    c.recipient_email == jsTrim (lowerStr email)).foldl pickLatest none

/-- `scheduleRetry`. -/
def scheduleRetry (st : EngineState) (now : Nat) (cid : String)
    (hoursDelay : Nat) : EngineState :=
  updateCampaign st now cid fun r =>
    { r with retry_scheduled_at := some (now + hoursDelay * 60 * 60 * 1000),
             status := "retry_scheduled" }

/-- `flagForReview`. -/
def flagForReview (st : EngineState) (now : Nat) (cid : String)
    (reason : String) : EngineState :=
  updateCampaign st now cid fun r =>
    { r with needs_review := true, review_reason := some reason,
             flagged_at := some now }

/- ===================== Link instrumentation (addTracking) ===================== -/

/-- Uppercase hex digit. -/
def hexDigit (n : Nat) : Char :=
  if n < 10 then Char.ofNat (48 + n) else Char.ofNat (55 + n)

/-- Percent-encode one byte. -/
def percentByte (b : Nat) : List Char :=
  ['%', hexDigit (b / 16), hexDigit (b % 16)]

/-- UTF-8 bytes of one scalar value. -/
def utf8Bytes (c : Char) : List Nat :=
  let n := c.toNat
  if n < 0x80 then [n]
  else if n < 0x800 then [0xc0 + n / 64, 0x80 + n % 64]
  else if n < 0x10000 then
    [0xe0 + n / 4096, 0x80 + (n / 64) % 64, 0x80 + n % 64]
  else
    [0xf0 + n / 262144, 0x80 + (n / 4096) % 64, 0x80 + (n / 64) % 64,
     0x80 + n % 64]

/-- Characters `encodeURIComponent` leaves unescaped (code 39 is the
apostrophe). -/
def uriUnreserved (c : Char) : Bool :=
  c.isAlphanum || "-_.!~*()".data.contains c || c.toNat == 39

/-- `encodeURIComponent`. -/
def encodeURIComponent (s : String) : String :=
  String.mk (s.data.flatMap fun c =>
    if uriUnreserved c then [c] else (utf8Bytes c).flatMap percentByte)

/-- A character the URL regex `[^\s<>"]` accepts. -/
def isUrlChar (c : Char) : Bool :=
  !(jsWhitespace c) && c != '<' && c != '>' && c != '"'

/-- Leftmost-longest match of the URL regex at the head of `s`: the
scheme (with greedy optional `s`) followed by at least one URL
character. Returns the match and the remaining input. -/
def matchUrlAt (s : List Char) : Option (List Char × List Char) :=
  let tryScheme : List Char → Option (List Char × List Char) := fun pre =>
    if pre.isPrefixOf s then
      let rest := s.drop pre.length
      let run := rest.takeWhile isUrlChar
      if run.isEmpty then none else some (pre ++ run, rest.drop run.length)
    else none
  match tryScheme "https://".data with
  | some r => some r
  | none => tryScheme "http://".data

/-- Fueled left-to-right global regex replace over the body. Each step
consumes at least one character, so fuel equal to the input length is
always enough; the fuel argument only makes the recursion structural. -/
def replaceUrlsAux (f : String → String) : Nat → List Char → List Char
  | 0, s => s
  | _ + 1, [] => []
  | fuel + 1, c :: rest =>
    match matchUrlAt (c :: rest) with
    | some (url, after) => (f (String.mk url)).data ++ replaceUrlsAux f fuel after
    | none => c :: replaceUrlsAux f fuel rest

/-- `body.replace(urlRegex, f)`. -/
def replaceUrls (f : String → String) (s : List Char) : List Char :=
  replaceUrlsAux f s.length s

/-- The replacement callback of `addTracking`: leave a URL alone when it
contains `/api/track` or `calendly`, otherwise wrap it in the internal
click-redirect. -/
def rewriteUrl (base cid : String) (u : String) : String :=
  if strContains u "/api/track" || strContains u "calendly" then u
  else base ++ "/api/track/click/" ++ cid ++ "?url=" ++ encodeURIComponent u

/-- The 1×1 open-tracking pixel appended to every tracked body. -/
def trackingPixel (base cid : String) : String :=
  "<img src=\"" ++ base ++ "/api/track/open/" ++ cid ++
  "\" width=\"1\" height=\"1\" style=\"display:none;\" alt=\"\" />"

/-- `addTracking(body, campaignId)`: identity when `campaignId` is null,
otherwise rewrite every absolute URL through `rewriteUrl` and append the
tracking pixel. -/
def addTracking (base : String) (body : String) (campaignId : Option String) :
    String :=
  match campaignId with
  | none => body
  | some cid =>
    String.mk (replaceUrls (rewriteUrl base cid) body.data) ++
      trackingPixel base cid

/- ===================== sendEmail ===================== -/

/-- `sendEmail(to, subject, body, campaignId)`: blocklist short-circuit,
then the provider call (logged, with the oracle deciding success), with
the stats counter bumped only on success. The HTML body handed to the
provider is `addTracking` applied to the plain body. -/
def sendEmail (pr : Nat → ProviderResult) (st : EngineState)
    (toAddr subject body : String) (campaignId : Option String) :
    EngineState × SendResult :=
  if isEmailBlocked st toAddr then (st, .blocked)
  else
    let _trackedBody := addTracking trackingBaseUrl body campaignId
    let st1 := { st with
      providerCalls := st.providerCalls ++ [⟨toAddr, subject, campaignId⟩],
      sendSeq := st.sendSeq + 1 }
    match pr st.sendSeq with
    | .ok emailId =>
      ({ st1 with stats := { st1.stats with
           emailsSent := st1.stats.emailsSent + 1 } }, .sent emailId)
    | .err msg => (st1, .failed msg)

/- ===================== Follow-up sequencer ===================== -/

/-- `getCurrentSequenceStep(status)` (the source's switch). -/
def getCurrentSequenceStep (status : String) : Nat :=
  if status == "sent" then 0
  else if status == "follow_up_1" then 1
  else if status == "follow_up_2" then 2
  else 3

/-- The source compares `hoursSinceLastTouch >= hoursNeeded` where
`hoursSinceLastTouch = (now - lastTouch) / (1000*60*60)` in double
arithmetic. Clearing the positive divisor gives this exact integer
comparison; doubles agree with the exact value at this granularity
(elapsed values are multiples of one 3600000th, far coarser than double
rounding error at the compared magnitudes). -/
def hoursGE (now lastTouch : Nat) (hoursNeeded : Int) : Bool :=
  decide (hoursNeeded * (1000 * 60 * 60) ≤ (now : Int) - (lastTouch : Int))

/-- `shouldSendFollowUp(campaign)`: look up the next step by the status
index; compare hours since the last touch (`last_followup_at`, falling
back to `sent_at || created_at`) against the step's incremental delay
(the raw delay at index 0, otherwise this step's cumulative delay minus
the previous step's). -/
def shouldSendFollowUp (now : Nat) (c : Campaign) : Bool :=
  let sentAt := c.sent_at.getD c.created_at
  let currentStep := getCurrentSequenceStep c.status
  match defaultSequence[currentStep]? with
  | none => false
  | some nextStep =>
    let lastFollowUp := c.last_followup_at.getD sentAt
    let hoursNeeded : Int :=
      if currentStep == 0 then (nextStep.delay : Int)
      else (nextStep.delay : Int) -
        (((defaultSequence[currentStep - 1]?).map SequenceStep.delay).getD 0 : Nat)
    hoursGE now lastFollowUp hoursNeeded

/-- Modelled from the spec (§4.5 step 4): elapsed hours since the *later*
of the original send time and the last follow-up send time, compared to
the incremental delay for the current step. -/
def dueCheckSpec (now : Nat) (c : Campaign) : Bool :=
  let sentAt := c.sent_at.getD c.created_at
  let idx := getCurrentSequenceStep c.status
  match defaultSequence[idx]? with
  | none => false
  | some step =>
    let lastTouch := max sentAt (c.last_followup_at.getD sentAt)
    let inc : Int :=
      if idx == 0 then (step.delay : Int)
      else (step.delay : Int) -
        (((defaultSequence[idx - 1]?).map SequenceStep.delay).getD 0 : Nat)
    hoursGE now lastTouch inc

/-- JS truthiness of an optional string (`null`/`undefined`/`""` are
falsy). -/
def jsTruthy : Option String → Bool
  | none => false
  | some s => s != ""

/-- `x || y` on an optional string with a string default. -/
def jsOrStr (o : Option String) (d : String) : String :=
  match o with
  | some s => if s == "" then d else s
  | none => d

/-- `campaign.contact_name ? campaign.contact_name.split(' ')[0] : ''`. -/
def firstNameOf (c : Campaign) : String :=
  match c.contact_name with
  | none => ""
  | some n => if n == "" then "" else (n.splitOn " ").headD ""

/-- Greeting fragment `Hi${firstName ? ' ' + firstName : ''}`. -/
def greetName (firstName : String) : String :=
  if firstName == "" then "" else " " ++ firstName

/-- `generateFollowUpEmail(campaign, step)`: the three hard-coded
templates, keyed by step type with `follow_up_1` as the fallback. -/
def generateFollowUpEmail (c : Campaign) (step : SequenceStep) :
    String × String :=
  let firstName := firstNameOf c
  let company := c.company_name
  let t1 : String × String :=
    (jsOrStr (some firstName) company ++ " - quick follow-up",
     "Hi" ++ greetName firstName ++
     ",\n\nI wanted to circle back on my previous note about " ++ company ++
     ".\n\nI know things get busy, so I'll keep this brief: if you're still thinking about how to reduce your dependency on the business while maintaining growth, I'd love to chat.\n\nEven a 15-minute call could be valuable to explore if there's a fit.\n\n" ++
     calendlyLink ++ "\n\nBest,\n" ++ senderName)
  let t2 : String × String :=
    ("One more thought for " ++ company,
     "Hi" ++ greetName firstName ++
     ",\n\nI've been thinking about " ++ company ++
     " and wanted to share one quick observation.\n\nMany founders at your stage have built something valuable but find themselves as the bottleneck for key decisions. The business works, but it can't scale without you.\n\nIf that resonates, I've helped several businesses like yours build the leadership layer and systems to grow without adding chaos.\n\nWorth a quick conversation?\n\n" ++
     calendlyLink ++ "\n\n" ++ senderName)
  let t3 : String × String :=
    ("Last note - " ++ company,
     "Hi" ++ greetName firstName ++
     ",\n\nI'll keep this short - this will be my last follow-up.\n\nIf building a business that can thrive without your daily involvement isn't a priority right now, I completely understand.\n\nBut if it is something you're thinking about, even down the road, I'm happy to be a resource.\n\nEither way, I wish you continued success with " ++
     company ++ ".\n\nBest,\n" ++ senderName ++
     "\n\nP.S. My calendar is always open if you want to chat: " ++ calendlyLink)
  if step.type == "follow_up_1" then t1
  else if step.type == "follow_up_2" then t2
  else if step.type == "follow_up_final" then t3
  else t1

/-- `sendNextFollowUp(campaign)`: look up the next step; send through the
shared delivery path; then — without inspecting the send result —
advance the status, stamp `last_followup_at`, bump `followup_count`, and
append the conversation row. -/
def sendNextFollowUp (pr : Nat → ProviderResult) (now : Nat)
    (st : EngineState) (c : Campaign) : EngineState :=
  let currentStep := getCurrentSequenceStep c.status
  match defaultSequence[currentStep]? with
  | none => st
  | some nextStep =>
    let content := generateFollowUpEmail c nextStep
    let st1 := (sendEmail pr st c.recipient_email content.1 content.2 (some c.id)).1
    let st2 := updateCampaign st1 now c.id fun r =>
      { r with status := nextStep.type,
               last_followup_at := some now,
               followup_count := c.followup_count + 1 }
    storeOutgoingEmail st2 now c.id content.1 content.2 nextStep.type

/-- The eligibility filter of the sequencer's query: status in
`sent/follow_up_1/follow_up_2` and none of the three terminal
timestamps set. -/
def followUpEligible (c : Campaign) : Bool :=
  (c.status == "sent" || c.status == "follow_up_1" || c.status == "follow_up_2")
  && c.replied_at.isNone && c.bounced_at.isNone && c.unsubscribed_at.isNone

/-- One iteration of the sweep loop body (the counter mirrors
`followUpsSent`). -/
def sweepStep (pr : Nat → ProviderResult) (now : Nat)
    (acc : EngineState × Nat) (c : Campaign) : EngineState × Nat :=
  if shouldSendFollowUp now c then
    (sendNextFollowUp pr now acc.1 c, acc.2 + 1)
  else acc

/-- `processFollowUpQueue()`: query the eligible snapshot, walk it with
the loop body, then add the count to the engine stats. (The 10-second
inter-send throttle changes no modelled state.) -/
def processFollowUpQueue (pr : Nat → ProviderResult) (now : Nat)
    (st : EngineState) : EngineState :=
  let res := (st.campaigns.filter followUpEligible).foldl (sweepStep pr now) (st, 0)
  { res.1 with stats := { res.1.stats with
      followUpsSent := res.1.stats.followUpsSent + res.2 } }

/-- The campaign ids the sequencer's query selects on a given state. -/
def followUpSelected (st : EngineState) : List String :=
  (st.campaigns.filter followUpEligible).map Campaign.id

/-- Repeated sweeps (the hourly interval of `start()`), the k-th sweep
running at time `nows k`. -/
def processFollowUpQueueN (pr : Nat → ProviderResult) (nows : Nat → Nat) :
    Nat → EngineState → EngineState
  | 0, st => st
  | k + 1, st => processFollowUpQueueN pr nows k (processFollowUpQueue pr (nows k) st)

/-- Any of the three terminal timestamps set. -/
def terminalB (c : Campaign) : Bool :=
  c.replied_at.isSome || c.bounced_at.isSome || c.unsubscribed_at.isSome

/-- Number of provider calls attributed to a campaign id. -/
def callsTo (cid : String) (st : EngineState) : Nat :=
  (st.providerCalls.filter fun p => p.campaignId == some cid).length

/-- Number of conversation rows attributed to a campaign id. -/
def convosTo (cid : String) (st : EngineState) : Nat :=
  (st.conversations.filter fun r => r.campaign_id == cid).length

/- ===================== Webhook + tracking handlers ===================== -/

/-- `handleEmailOpened(data)`: first open sets `opened_at` and logs an
engagement event; later opens only bump the counter. -/
def handleEmailOpened (st : EngineState) (emailId toAddr : String) (now : Nat) :
    EngineState :=
  match findCampaignByEmail st toAddr with
  | none => st
  | some c =>
    if c.opened_at.isNone then
      let st1 := updateCampaign st now c.id fun r =>
        { r with opened_at := some now, open_count := c.open_count + 1 }
      logEngagement st1 now c.id "open" [("email_id", emailId)]
    else
      updateCampaign st now c.id fun r =>
        { r with open_count := c.open_count + 1 }

/-- `handleEmailClicked(data)`: stamp `clicked_at` (unconditionally) and
bump the counter, log the engagement, and when the link contains
`calendly` additionally move the campaign to `booking` and stamp
`calendly_clicked_at`. -/
def handleEmailClicked (st : EngineState) (emailId toAddr : String)
    (link : Option String) (now : Nat) : EngineState :=
  match findCampaignByEmail st toAddr with
  | none => st
  | some c =>
    let st1 := updateCampaign st now c.id fun r =>
      { r with clicked_at := some now, click_count := c.click_count + 1 }
    let st2 := logEngagement st1 now c.id "click"
      [("email_id", emailId), ("link", (link.getD ""))]
    if (match link with | some l => strContains l "calendly" | none => false) then
      updateCampaign st2 now c.id fun r =>
        { r with status := "booking", calendly_clicked_at := some now }
    else st2

/-- `trackOpen(campaignId)` (the pixel endpoint; the returned GIF bytes
carry no state): bump `open_count`, set `opened_at` only when unset, log
the engagement. -/
def trackOpen (st : EngineState) (campaignId : String) (now : Nat) :
    EngineState :=
  match st.campaigns.find? (fun c => c.id == campaignId) with
  | none => st
  | some c =>
    let st1 := updateCampaign st now campaignId fun r =>
      if c.opened_at.isNone then
        { r with open_count := c.open_count + 1, opened_at := some now }
      else
        { r with open_count := c.open_count + 1 }
    logEngagement st1 now campaignId "open" [("source", "pixel")]

/-- `trackClick(campaignId, targetUrl)` (the click-redirect endpoint; the
redirect target is the unchanged `targetUrl`): bump `click_count`, set
`clicked_at` only when unset, log the engagement. -/
def trackClick (st : EngineState) (campaignId targetUrl : String) (now : Nat) :
    EngineState :=
  match st.campaigns.find? (fun c => c.id == campaignId) with
  | none => st
  | some c =>
    let st1 := updateCampaign st now campaignId fun r =>
      if c.clicked_at.isNone then
        { r with click_count := c.click_count + 1, clicked_at := some now }
      else
        { r with click_count := c.click_count + 1 }
    logEngagement st1 now campaignId "click" [("url", targetUrl)]

/- ===================== Reply dispatch ===================== -/

/-- `sendBookingEmail(campaign)`: the Calendly invitation, then status
`booking_sent`. -/
def sendBookingEmail (pr : Nat → ProviderResult) (now : Nat)
    (st : EngineState) (c : Campaign) : EngineState :=
  let firstName := firstNameOf c
  let subject := "Let's find a time to chat, " ++ jsOrStr (some firstName) c.company_name
  let body :=
    "Hi" ++ greetName firstName ++
    ",\n\nGreat to hear back from you! I'd love to learn more about what you're building at " ++
    c.company_name ++
    ".\n\nHere's my calendar - pick any time that works for you:\n\n" ++
    calendlyLink ++
    "\n\nThe call will be quick (15-20 minutes) and focused on understanding your specific situation.\n\nLooking forward to it!\n\n" ++
    senderName
  let st1 := (sendEmail pr st c.recipient_email subject body (some c.id)).1
  updateCampaign st1 now c.id fun r =>
    { r with status := "booking_sent", booking_email_sent_at := some now }

/-- `sendFollowUpEmail(campaign, responseText, type)`: substitute the
calendar-link placeholder, send, and append the conversation row. -/
def sendFollowUpEmail (pr : Nat → ProviderResult) (now : Nat)
    (st : EngineState) (c : Campaign) (responseText typ : String) : EngineState :=
  let body := replaceFirst responseText "[CALENDAR_LINK]" calendlyLink
  let subject := "Re: " ++ jsOrStr c.subject c.company_name
  let st1 := (sendEmail pr st c.recipient_email subject body (some c.id)).1
  storeOutgoingEmail st1 now c.id subject body typ

/-- What the external classifier hands back for a reply. -/
structure ClassificationResult where
  intent : String
  response : Option String
  action : String
  deriving Repr, DecidableEq

/-- The action enum the dispatch switch knows. -/
def knownActions : List String :=
  ["send_response_and_monitor", "send_response_and_nurture",
   "send_calendar_link", "mark_closed", "remove_from_list",
   "wait_and_retry", "flag_for_human_review"]

/-- `handleClassifiedReply(campaign, classificationResult)`: dispatch on
the action string. The source's switch has no default case and never
throws, so the embedding is total and ends in an `Except.ok` in every
branch; an unrecognized action reaches the final branch and changes
nothing. -/
def handleClassifiedReply (pr : Nat → ProviderResult) (now : Nat)
    (st : EngineState) (c : Campaign) (res : ClassificationResult) :
    Except String EngineState :=
  let a := res.action
  if a == "send_response_and_monitor" || a == "send_response_and_nurture" then
    .ok (if jsTruthy res.response then
      sendFollowUpEmail pr now st c (res.response.getD "") "reply_response"
    else st)
  else if a == "send_calendar_link" then
    let st1 := sendBookingEmail pr now st c
    .ok { st1 with stats := { st1.stats with
      bookingsTriggered := st1.stats.bookingsTriggered + 1 } }
  else if a == "mark_closed" then .ok st
  else if a == "remove_from_list" then
    .ok (addToUnsubscribeList st now c.recipient_email "requested")
  else if a == "wait_and_retry" then .ok (scheduleRetry st now c.id 72)
  else if a == "flag_for_human_review" then
    .ok (flagForReview st now c.id "unclear_reply")
  else .ok st

/- ===================== Analytics ===================== -/

/-- The rate strings of `getAnalytics`. -/
structure AnalyticsRates where
  deliveryRate : String
  openRate : String
  clickRate : String
  replyRate : String
  bookingRate : String
  bounceRate : String
  deriving Repr, DecidableEq

/-- The funnel `getAnalytics` returns. -/
structure Analytics where
  period : String
  total : Nat
  sent : Nat
  delivered : Nat
  opened : Nat
  clicked : Nat
  replied : Nat
  booked : Nat
  bounced : Nat
  rates : AnalyticsRates
  deriving Repr, DecidableEq

/-- `((num / den) * 100).toFixed(1)` under exact rational arithmetic
(ECMA `toFixed` rounds half away from zero; the produced digits agree
with the double computation on the denominators the engine meets). -/
def toFixed1Pct (num den : Nat) : String :=
  let n := (num * 2000 + den) / (2 * den)
  toString (n / 10) ++ "." ++ toString (n % 10)

/-- One guarded rate string: `den > 0 ? ((num/den)*100).toFixed(1)+'%' : '0%'`. -/
def pctRate (num den : Nat) : String :=
  if den > 0 then toFixed1Pct num den ++ "%" else "0%"

/-- `getAnalytics(days)`: window campaigns by creation time, count each
funnel stage, and derive the guarded rate strings. -/
def getAnalytics (now : Nat) (days : Nat) (st : EngineState) : Analytics :=
  let since := now - days * 24 * 60 * 60 * 1000
  let campaigns := st.campaigns.filter fun c => since ≤ c.created_at
  let total := campaigns.length
  let sent := (campaigns.filter fun c => c.sent_at.isSome).length
  let delivered := (campaigns.filter fun c => c.delivered_at.isSome).length
  let opened := (campaigns.filter fun c => c.opened_at.isSome).length
  let clicked := (campaigns.filter fun c => c.clicked_at.isSome).length
  let replied := (campaigns.filter fun c => c.replied_at.isSome).length
  let booked := (campaigns.filter fun c => c.status == "meeting_scheduled").length
  let bounced := (campaigns.filter fun c => c.bounced_at.isSome).length
  { period := toString days ++ " days",
    total := total, sent := sent, delivered := delivered, opened := opened,
    clicked := clicked, replied := replied, booked := booked, bounced := bounced,
    rates :=
      { deliveryRate := pctRate delivered sent,
        openRate := pctRate opened delivered,
        clickRate := pctRate clicked opened,
        replyRate := pctRate replied delivered,
        bookingRate := pctRate booked replied,
        bounceRate := pctRate bounced sent } }

/- ===================== Concrete example states ===================== -/

/-- A provider oracle that always accepts. -/
def oracleOk : Nat → ProviderResult := fun _ => .ok "resend-id"

/-- 73 hours in milliseconds. -/
def hour73 : Nat := 262800000

/-- A sweep schedule that always runs at the 73-hour mark. -/
def sweepTimes : Nat → Nat := fun _ => hour73

/-- A campaign that has replied (terminal for the sequencer). -/
def repliedCampaign : Campaign :=
  { id := "c1", recipient_email := "a@b.com", company_name := "Acme",
    status := "sent", sent_at := some 0, replied_at := some 5 }

def repliedState : EngineState := { campaigns := [repliedCampaign] }

/-- A plain replied campaign for the dispatch examples. -/
def plainCampaign : Campaign :=
  { id := "c1", recipient_email := "a@b.com", company_name := "Acme",
    status := "replied" }

def plainState : EngineState := { campaigns := [plainCampaign] }

/-- A classifier result whose action is outside the known enum. -/
def bogusResult : ClassificationResult :=
  { intent := "interested", response := some "Thanks!",
    action := "escalate_to_sales" }

/-- An in-sequence campaign whose recipient sits on the blocklist. -/
def blockedCampaign : Campaign :=
  { id := "c1", recipient_email := "a@b.com", company_name := "Acme",
    status := "sent", sent_at := some 0 }

def blockedState : EngineState :=
  { campaigns := [blockedCampaign],
    blocklist := [⟨"a@b.com", "unsubscribe", none, 0⟩] }

/-- A fresh campaign with no engagement yet. -/
def freshState : EngineState :=
  { campaigns := [{ id := "c1", recipient_email := "a@b.com" }] }

/-- A sent campaign for the click-redirect example. -/
def sentState : EngineState := { campaigns := [{ id := "c1", status := "sent" }] }

/-- A `sent` campaign whose initial send was 73 hours before `hour73`. -/
def campaign73h : Campaign := { id := "c1", status := "sent", sent_at := some 0 }

/-- A `sent` campaign whose initial send was 71 hours before `hour73`. -/
def campaign71h : Campaign :=
  { id := "c2", status := "sent", sent_at := some 7200000 }

/-- Funnel example: 10 campaigns, 8 with `sent_at`, 4 of those with
`delivered_at`. -/
def funnelCampaign (i : Nat) (s d : Option Nat) : Campaign :=
  { id := toString i, sent_at := s, delivered_at := d }

def funnelState : EngineState :=
  { campaigns :=
      [funnelCampaign 1 (some 1) (some 2), funnelCampaign 2 (some 1) (some 2),
       funnelCampaign 3 (some 1) (some 2), funnelCampaign 4 (some 1) (some 2),
       funnelCampaign 5 (some 1) none, funnelCampaign 6 (some 1) none,
       funnelCampaign 7 (some 1) none, funnelCampaign 8 (some 1) none,
       funnelCampaign 9 none none, funnelCampaign 10 none none] }

/-- Funnel example with 2 delivered, 1 clicked, 1 replied. -/
def replyRateState : EngineState :=
  { campaigns :=
      [{ id := "a", sent_at := some 1, delivered_at := some 2,
         opened_at := some 3, clicked_at := some 4, replied_at := some 5 },
       { id := "b", sent_at := some 1, delivered_at := some 2 }] }

/- ===================== Theorems ===================== -/

/-- Claim C7 (counterexample): `cleanReplyText` is not the spec's
line-anchored, earliest-boundary stripping. On `"Hello > world"` none of
the spec's boundary markers occurs (in particular no *line* begins with
`>`), so the spec-modelled cleaner returns the text unchanged, yet the
code truncates at the mid-line `>` and returns `"Hello"`. -/
theorem C7_counterexample_midline_gt :
    cleanReplyText "Hello > world" = "Hello" ∧
    cleanReplySpec "Hello > world" = "Hello > world" ∧
    cleanReplyText "Hello > world" ≠ cleanReplySpec "Hello > world" := by
  refine ⟨by decide, by decide, by decide⟩

/-- Claim C7 (amended): the cleaner truncates at the first match of each
pattern in a fixed order, where the markers match anywhere in the text
(not only at line starts) and a match at index 0 is kept; on the spec's
concrete example it yields exactly `"Interesting!"`, while a `>` in the
middle of a line also cuts the text. -/
theorem C7_cleanReply_behavior :
    cleanReplyText "Interesting!\n\nOn Mon, Jan 1 wrote:\n> original message"
      = "Interesting!" ∧
    cleanReplyText "Hello > world" = "Hello" := by
  refine ⟨by decide, by decide⟩

/-- Claim C2 (counterexample): the dispatch switch has no default case:
on the unknown action `"escalate_to_sales"` it returns normally
(`Except.ok`) with the state unchanged — a silent no-op, not a hard
error. -/
theorem C2_counterexample_silent_noop :
    handleClassifiedReply oracleOk 99 plainState plainCampaign bogusResult
      = .ok plainState ∧ bogusResult.action ∉ knownActions := by
  exact ⟨rfl, by decide⟩

/-- Claim C2 (amended): for every classification result whose action lies
outside the known enum, `handleClassifiedReply` silently ignores it: it
performs no state change and raises no error. -/
theorem C2_unknown_action_silent_noop (pr : Nat → ProviderResult) (now : Nat)
    (st : EngineState) (c : Campaign) (res : ClassificationResult)
    (h : res.action ∉ knownActions) :
    handleClassifiedReply pr now st c res = .ok st := by
  simp only [knownActions, List.mem_cons, List.not_mem_nil, or_false,
    not_or] at h
  obtain ⟨h1, h2, h3, h4, h5, h6, h7⟩ := h
  simp [handleClassifiedReply, h1, h2, h3, h4, h5, h6, h7]

/-- Witness for C2: the concrete unknown action satisfies the hypothesis
and the amended conclusion. -/
theorem C2_unknown_action_silent_noop_witness :
    bogusResult.action ∉ knownActions ∧
    handleClassifiedReply oracleOk 99 plainState plainCampaign bogusResult
      = .ok plainState :=
  ⟨by decide,
   C2_unknown_action_silent_noop oracleOk 99 plainState plainCampaign
     bogusResult (by decide)⟩

/-- `sendEmail` never touches the campaign table. -/
theorem sendEmail_campaigns (pr : Nat → ProviderResult) (st : EngineState)
    (toAddr subject body : String) (cid : Option String) :
    ((sendEmail pr st toAddr subject body cid).1).campaigns = st.campaigns := by
  unfold sendEmail
  split
  · rfl
  · dsimp only
    split <;> rfl

/-- `sendEmail` never appends a conversation row. -/
theorem sendEmail_conversations (pr : Nat → ProviderResult) (st : EngineState)
    (toAddr subject body : String) (cid : Option String) :
    ((sendEmail pr st toAddr subject body cid).1).conversations
      = st.conversations := by
  unfold sendEmail
  split
  · rfl
  · dsimp only
    split <;> rfl

/-- Claim C3 (amended): the shared delivery path itself short-circuits on
the blocklist: a blocked recipient yields the `blocked` result with the
state completely unchanged — no provider call, no conversation row, no
counter bump. (The sequencer wrapper around it is claim C10's story.) -/
theorem C3_sendEmail_blocked_short_circuit (pr : Nat → ProviderResult)
    (st : EngineState) (toAddr subject body : String) (cid : Option String)
    (h : isEmailBlocked st toAddr = true) :
    sendEmail pr st toAddr subject body cid = (st, .blocked) := by
  simp [sendEmail, h]

/-- Witness for C3: the concrete blocked recipient satisfies the
hypothesis and the short-circuit conclusion. -/
theorem C3_sendEmail_blocked_short_circuit_witness :
    isEmailBlocked blockedState "a@b.com" = true ∧
    sendEmail oracleOk blockedState "a@b.com" "s" "b" (some "c1")
      = (blockedState, .blocked) :=
  ⟨by decide,
   C3_sendEmail_blocked_short_circuit oracleOk blockedState "a@b.com" "s" "b"
     (some "c1") (by decide)⟩

/-- Claim C3 (counterexample): a sequencer sweep over a due campaign whose
recipient is blocklisted makes no provider call, yet *does* append a new
ConversationMessage row for that campaign — contradicting the claim that
a blocked send produces no new ConversationMessage row even when
triggered by the Follow-up Sequencer. -/
theorem C3_counterexample_blocked_sweep_stores_row :
    isEmailBlocked blockedState "a@b.com" = true ∧
    (processFollowUpQueue oracleOk hour73 blockedState).providerCalls = [] ∧
    (processFollowUpQueue oracleOk hour73 blockedState).conversations.map
      ConversationRow.campaign_id = ["c1"] := by
  refine ⟨by decide, by decide, by decide⟩

/-- Claim C10: once the sequencer decides a step is due, `sendNextFollowUp`
advances the campaign (status, `followup_count`, `last_followup_at`) and
appends the conversation row no matter what the delivery path returned —
for every provider oracle, and when the recipient is blocked the provider
is never called yet the campaign still advances. -/
theorem C10_followup_advances_regardless (pr : Nat → ProviderResult)
    (now : Nat) (st : EngineState) (c : Campaign) (step : SequenceStep)
    (h : defaultSequence[getCurrentSequenceStep c.status]? = some step) :
    (sendNextFollowUp pr now st c).conversations = st.conversations ++
      [⟨c.id, "outgoing", step.type, (generateFollowUpEmail c step).1,
        (generateFollowUpEmail c step).2, now⟩] ∧
    (∀ r' ∈ (sendNextFollowUp pr now st c).campaigns, r'.id = c.id →
      r'.status = step.type ∧ r'.followup_count = c.followup_count + 1 ∧
      r'.last_followup_at = some now) ∧
    (isEmailBlocked st c.recipient_email = true →
      (sendNextFollowUp pr now st c).providerCalls = st.providerCalls) := by
  unfold sendNextFollowUp
  dsimp only
  rw [h]
  dsimp only
  refine ⟨?_, ?_, ?_⟩
  · simp [storeOutgoingEmail, updateCampaign, sendEmail_conversations]
  · intro r' hr' hid
    simp only [storeOutgoingEmail, updateCampaign] at hr'
    rw [sendEmail_campaigns] at hr'
    obtain ⟨r, hr, hmap⟩ := List.mem_map.mp hr'
    by_cases hc : r.id = c.id
    · rw [show (r.id == c.id) = true from beq_iff_eq.mpr hc, if_pos rfl] at hmap
      subst hmap
      exact ⟨rfl, rfl, rfl⟩
    · rw [show (r.id == c.id) = false from beq_eq_false_iff_ne.mpr hc] at hmap
      simp only [Bool.false_eq_true, if_false] at hmap
      subst hmap
      exact absurd hid hc
  · intro hb
    simp [storeOutgoingEmail, updateCampaign,
      C3_sendEmail_blocked_short_circuit pr st c.recipient_email _ _ _ hb]

/-- Witness for C10: a blocked, due campaign at sequence index 0. -/
theorem C10_followup_advances_regardless_witness :
    defaultSequence[getCurrentSequenceStep blockedCampaign.status]?
      = some ⟨72, "follow_up_1", "Quick follow-up"⟩ ∧
    ((sendNextFollowUp oracleOk 100 blockedState blockedCampaign).conversations
        = blockedState.conversations ++
          [⟨blockedCampaign.id, "outgoing", "follow_up_1",
            (generateFollowUpEmail blockedCampaign
              ⟨72, "follow_up_1", "Quick follow-up"⟩).1,
            (generateFollowUpEmail blockedCampaign
              ⟨72, "follow_up_1", "Quick follow-up"⟩).2, 100⟩] ∧
      (∀ r' ∈ (sendNextFollowUp oracleOk 100 blockedState blockedCampaign).campaigns,
        r'.id = blockedCampaign.id →
          r'.status = "follow_up_1" ∧
          r'.followup_count = blockedCampaign.followup_count + 1 ∧
          r'.last_followup_at = some 100) ∧
      (isEmailBlocked blockedState blockedCampaign.recipient_email = true →
        (sendNextFollowUp oracleOk 100 blockedState blockedCampaign).providerCalls
          = blockedState.providerCalls)) :=
  ⟨by decide,
   C10_followup_advances_regardless oracleOk 100 blockedState blockedCampaign
     ⟨72, "follow_up_1", "Quick follow-up"⟩ (by decide)⟩

/-- A foldl of `pickLatest` returns either an element of the list or the
accumulator. -/
theorem foldl_pickLatest_mem (l : List Campaign) :
    ∀ (acc : Option Campaign) (c : Campaign),
      l.foldl pickLatest acc = some c → c ∈ l ∨ acc = some c := by
  induction l with
  | nil => intro acc c h; exact Or.inr h
  | cons a t ih =>
    intro acc c h
    rcases ih (pickLatest acc a) c h with hm | he
    · exact Or.inl (List.mem_cons_of_mem a hm)
    · cases acc with
      | none =>
        simp only [pickLatest, Option.some.injEq] at he
        exact Or.inl (he ▸ List.mem_cons_self a t)
      | some b =>
        simp only [pickLatest] at he
        split at he
        · rw [Option.some.injEq] at he
          exact Or.inl (he ▸ List.mem_cons_self a t)
        · exact Or.inr he

/-- The campaign `findCampaignByEmail` returns is a row of the table. -/
theorem findCampaignByEmail_mem (st : EngineState) (email : String)
    (c : Campaign) (h : findCampaignByEmail st email = some c) :
    c ∈ st.campaigns := by
  unfold findCampaignByEmail at h
  rcases foldl_pickLatest_mem _ none c h with hm | he
  · exact List.mem_of_mem_filter hm
  · cases he

/-- Claim C5 (counterexample): a click recorded through the click-redirect
endpoint on a scheduling-domain URL does *not* transition the campaign to
`booking` and stamps no `calendly_clicked_at`: `trackClick` has no
scheduling-domain branch at all. -/
theorem C5_counterexample_trackClick_no_booking :
    strContains "https://calendly.com/maggieforbes/discovery" "calendly"
      = true ∧
    ((trackClick sentState "c1" "https://calendly.com/maggieforbes/discovery"
        7).campaigns.map fun c => (c.status, c.calendly_clicked_at))
      = [("sent", none)] ∧
    ("sent" : String) ≠ "booking" := by
  refine ⟨by decide, by decide, by decide⟩

/-- Claim C5 (amended): the booking transition driven by a
scheduling-domain click exists only on the provider webhook path:
`trackClick` never changes any campaign's status or
`calendly_clicked_at`, while `handleEmailClicked` moves the matched
campaign to `booking` and stamps `calendly_clicked_at` whenever the
clicked link contains `calendly`. -/
theorem C5_calendly_booking_webhook_only :
    (∀ (st : EngineState) (cid url : String) (t : Nat),
      ∀ r' ∈ (trackClick st cid url t).campaigns, ∃ r ∈ st.campaigns,
        r'.id = r.id ∧ r'.status = r.status ∧
        r'.calendly_clicked_at = r.calendly_clicked_at) ∧
    (∀ (st : EngineState) (e toAddr l : String) (t : Nat) (c : Campaign),
      findCampaignByEmail st toAddr = some c →
      strContains l "calendly" = true →
      ∀ r' ∈ (handleEmailClicked st e toAddr (some l) t).campaigns,
        r'.id = c.id →
          r'.status = "booking" ∧ r'.calendly_clicked_at = some t) := by
  constructor
  · intro st cid url t r' hr'
    unfold trackClick at hr'
    rcases hfind : st.campaigns.find? (fun c => c.id == cid) with _ | c
    · rw [hfind] at hr'
      exact ⟨r', hr', rfl, rfl, rfl⟩
    · rw [hfind] at hr'
      simp only [logEngagement, updateCampaign] at hr'
      obtain ⟨r, hr, hmap⟩ := List.mem_map.mp hr'
      refine ⟨r, hr, ?_⟩
      subst hmap
      by_cases hc : (r.id == cid) = true
      · rw [if_pos hc]
        rcases hop : c.clicked_at.isNone with _ | _ <;> simp [hop]
      · rw [if_neg hc]
        exact ⟨rfl, rfl, rfl⟩
  · intro st e toAddr l t c hfind hcal r' hr' hid
    unfold handleEmailClicked at hr'
    rw [hfind] at hr'
    simp only [hcal, if_true, logEngagement, updateCampaign] at hr'
    obtain ⟨r, hr, hmap⟩ := List.mem_map.mp hr'
    by_cases hc : (r.id == c.id) = true
    · rw [if_pos hc] at hmap
      subst hmap
      exact ⟨rfl, rfl⟩
    · rw [if_neg hc] at hmap
      subst hmap
      exact absurd (beq_iff_eq.mpr hid) hc

/-- Witness for C5: a concrete webhook click on a calendly link books the
matched campaign. -/
theorem C5_calendly_booking_webhook_only_witness :
    findCampaignByEmail freshState "a@b.com"
      = some { id := "c1", recipient_email := "a@b.com" } ∧
    strContains "https://calendly.com/x" "calendly" = true ∧
    (∀ r' ∈ (handleEmailClicked freshState "e1" "a@b.com"
        (some "https://calendly.com/x") 7).campaigns,
      r'.id = "c1" → r'.status = "booking" ∧ r'.calendly_clicked_at = some 7) :=
  ⟨by decide, by decide,
   C5_calendly_booking_webhook_only.2 freshState "e1" "a@b.com"
     "https://calendly.com/x" 7 { id := "c1", recipient_email := "a@b.com" }
     (by decide) (by decide)⟩

/-- Per-row effect of the open-pixel endpoint: `open_count` never
decreases, a set `opened_at` is never overwritten, and the click side is
untouched. -/
theorem trackOpen_per_row (st : EngineState) (cid : String) (t : Nat)
    (hnd : (st.campaigns.map Campaign.id).Nodup) :
    ∀ r' ∈ (trackOpen st cid t).campaigns, ∃ r ∈ st.campaigns,
      r'.id = r.id ∧ r.open_count ≤ r'.open_count ∧
      (∀ x, r.opened_at = some x → r'.opened_at = some x) ∧
      r'.click_count = r.click_count ∧ r'.clicked_at = r.clicked_at := by
  intro r' hr'
  unfold trackOpen at hr'
  rcases hfind : st.campaigns.find? (fun c => c.id == cid) with _ | c
  · rw [hfind] at hr'
    exact ⟨r', hr', rfl, le_refl _, fun x hx => hx, rfl, rfl⟩
  · rw [hfind] at hr'
    have hcmem := List.mem_of_find?_eq_some hfind
    have hcid : c.id = cid := by simpa using List.find?_some hfind
    rcases hop : c.opened_at with _ | x0
    all_goals
      simp only [logEngagement, updateCampaign, hop, Option.isNone_none,
        Option.isNone_some, if_true, Bool.false_eq_true, if_false,
        List.mem_map] at hr'
    all_goals obtain ⟨r, hr, hmap⟩ := hr'
    all_goals by_cases hc : (r.id == cid) = true
    · have hrc : r = c :=
        List.inj_on_of_nodup_map hnd hr hcmem (by rw [beq_iff_eq] at hc; rw [hc, hcid])
      rw [if_pos hc] at hmap
      subst hmap
      refine ⟨r, hr, rfl, ?_, ?_, rfl, rfl⟩
      · rw [hrc]; exact Nat.le_succ _
      · intro x hx
        rw [hrc, hop] at hx
        cases hx
    · rw [if_neg hc] at hmap
      subst hmap
      exact ⟨r, hr, rfl, le_refl _, fun x hx => hx, rfl, rfl⟩
    · have hrc : r = c :=
        List.inj_on_of_nodup_map hnd hr hcmem (by rw [beq_iff_eq] at hc; rw [hc, hcid])
      rw [if_pos hc] at hmap
      subst hmap
      refine ⟨r, hr, rfl, ?_, ?_, rfl, rfl⟩
      · rw [hrc]; exact Nat.le_succ _
      · intro x hx
        exact hx
    · rw [if_neg hc] at hmap
      subst hmap
      exact ⟨r, hr, rfl, le_refl _, fun x hx => hx, rfl, rfl⟩

/-- Per-row effect of the click-redirect endpoint: `click_count` never
decreases, a set `clicked_at` is never overwritten, and the open side is
untouched. -/
theorem trackClick_per_row (st : EngineState) (cid url : String) (t : Nat)
    (hnd : (st.campaigns.map Campaign.id).Nodup) :
    ∀ r' ∈ (trackClick st cid url t).campaigns, ∃ r ∈ st.campaigns,
      r'.id = r.id ∧ r.click_count ≤ r'.click_count ∧
      (∀ x, r.clicked_at = some x → r'.clicked_at = some x) ∧
      r'.open_count = r.open_count ∧ r'.opened_at = r.opened_at := by
  intro r' hr'
  unfold trackClick at hr'
  rcases hfind : st.campaigns.find? (fun c => c.id == cid) with _ | c
  · rw [hfind] at hr'
    exact ⟨r', hr', rfl, le_refl _, fun x hx => hx, rfl, rfl⟩
  · rw [hfind] at hr'
    have hcmem := List.mem_of_find?_eq_some hfind
    have hcid : c.id = cid := by simpa using List.find?_some hfind
    rcases hop : c.clicked_at with _ | x0
    all_goals
      simp only [logEngagement, updateCampaign, hop, Option.isNone_none,
        Option.isNone_some, if_true, Bool.false_eq_true, if_false,
        List.mem_map] at hr'
    all_goals obtain ⟨r, hr, hmap⟩ := hr'
    all_goals by_cases hc : (r.id == cid) = true
    · have hrc : r = c :=
        List.inj_on_of_nodup_map hnd hr hcmem (by rw [beq_iff_eq] at hc; rw [hc, hcid])
      rw [if_pos hc] at hmap
      subst hmap
      refine ⟨r, hr, rfl, ?_, ?_, rfl, rfl⟩
      · rw [hrc]; exact Nat.le_succ _
      · intro x hx
        rw [hrc, hop] at hx
        cases hx
    · rw [if_neg hc] at hmap
      subst hmap
      exact ⟨r, hr, rfl, le_refl _, fun x hx => hx, rfl, rfl⟩
    · have hrc : r = c :=
        List.inj_on_of_nodup_map hnd hr hcmem (by rw [beq_iff_eq] at hc; rw [hc, hcid])
      rw [if_pos hc] at hmap
      subst hmap
      refine ⟨r, hr, rfl, ?_, ?_, rfl, rfl⟩
      · rw [hrc]; exact Nat.le_succ _
      · intro x hx
        exact hx
    · rw [if_neg hc] at hmap
      subst hmap
      exact ⟨r, hr, rfl, le_refl _, fun x hx => hx, rfl, rfl⟩

/-- Per-row effect of the opened-webhook handler: `open_count` never
decreases, a set `opened_at` is never overwritten, and the click side is
untouched. -/
theorem handleEmailOpened_per_row (st : EngineState) (emailId toAddr : String)
    (t : Nat) (hnd : (st.campaigns.map Campaign.id).Nodup) :
    ∀ r' ∈ (handleEmailOpened st emailId toAddr t).campaigns, ∃ r ∈ st.campaigns,
      r'.id = r.id ∧ r.open_count ≤ r'.open_count ∧
      (∀ x, r.opened_at = some x → r'.opened_at = some x) ∧
      r'.click_count = r.click_count ∧ r'.clicked_at = r.clicked_at := by
  intro r' hr'
  unfold handleEmailOpened at hr'
  rcases hfind : findCampaignByEmail st toAddr with _ | c
  · rw [hfind] at hr'
    exact ⟨r', hr', rfl, le_refl _, fun x hx => hx, rfl, rfl⟩
  · rw [hfind] at hr'
    have hcmem := findCampaignByEmail_mem st toAddr c hfind
    rcases hop : c.opened_at with _ | x0
    all_goals
      simp only [logEngagement, updateCampaign, hop, Option.isNone_none,
        Option.isNone_some, if_true, Bool.false_eq_true, if_false,
        List.mem_map] at hr'
    all_goals obtain ⟨r, hr, hmap⟩ := hr'
    all_goals by_cases hc : (r.id == c.id) = true
    · have hrc : r = c :=
        List.inj_on_of_nodup_map hnd hr hcmem (beq_iff_eq.mp hc)
      rw [if_pos hc] at hmap
      subst hmap
      refine ⟨r, hr, rfl, ?_, ?_, rfl, rfl⟩
      · rw [hrc]; exact Nat.le_succ _
      · intro x hx
        rw [hrc, hop] at hx
        cases hx
    · rw [if_neg hc] at hmap
      subst hmap
      exact ⟨r, hr, rfl, le_refl _, fun x hx => hx, rfl, rfl⟩
    · have hrc : r = c :=
        List.inj_on_of_nodup_map hnd hr hcmem (beq_iff_eq.mp hc)
      rw [if_pos hc] at hmap
      subst hmap
      refine ⟨r, hr, rfl, ?_, ?_, rfl, rfl⟩
      · rw [hrc]; exact Nat.le_succ _
      · intro x hx
        exact hx
    · rw [if_neg hc] at hmap
      subst hmap
      exact ⟨r, hr, rfl, le_refl _, fun x hx => hx, rfl, rfl⟩

/-- Per-row effect of the clicked-webhook handler: `click_count` never
decreases and the open side is untouched. (No statement about
`clicked_at`: the handler overwrites it on every event.) -/
theorem handleEmailClicked_per_row (st : EngineState) (emailId toAddr : String)
    (link : Option String) (t : Nat)
    (hnd : (st.campaigns.map Campaign.id).Nodup) :
    ∀ r' ∈ (handleEmailClicked st emailId toAddr link t).campaigns,
      ∃ r ∈ st.campaigns,
        r'.id = r.id ∧ r.click_count ≤ r'.click_count ∧
        r'.open_count = r.open_count ∧ r'.opened_at = r.opened_at := by
  intro r' hr'
  unfold handleEmailClicked at hr'
  rcases hfind : findCampaignByEmail st toAddr with _ | c
  · rw [hfind] at hr'
    exact ⟨r', hr', rfl, le_refl _, rfl, rfl⟩
  · rw [hfind] at hr'
    have hcmem := findCampaignByEmail_mem st toAddr c hfind
    rcases link with _ | l
    · simp only [Bool.false_eq_true, if_false, logEngagement,
        updateCampaign, List.mem_map] at hr'
      obtain ⟨r, hr, hmap⟩ := hr'
      by_cases hc : (r.id == c.id) = true
      · have hrc : r = c :=
          List.inj_on_of_nodup_map hnd hr hcmem (beq_iff_eq.mp hc)
        rw [if_pos hc] at hmap
        subst hmap
        refine ⟨r, hr, rfl, ?_, rfl, rfl⟩
        rw [hrc]; exact Nat.le_succ _
      · rw [if_neg hc] at hmap
        subst hmap
        exact ⟨r, hr, rfl, le_refl _, rfl, rfl⟩
    · by_cases hcal : strContains l "calendly" = true
      · simp only [hcal, if_true, logEngagement, updateCampaign,
          List.mem_map] at hr'
        obtain ⟨x, ⟨r, hr, hx⟩, hmap⟩ := hr'
        subst hx
        by_cases hc : (r.id == c.id) = true
        · have hrc : r = c :=
            List.inj_on_of_nodup_map hnd hr hcmem (beq_iff_eq.mp hc)
          rw [if_pos hc] at hmap
          rw [if_pos hc] at hmap
          subst hmap
          refine ⟨r, hr, rfl, ?_, rfl, rfl⟩
          rw [hrc]; exact Nat.le_succ _
        · rw [if_neg hc] at hmap
          rw [if_neg hc] at hmap
          subst hmap
          exact ⟨r, hr, rfl, le_refl _, rfl, rfl⟩
      · simp only [hcal, Bool.false_eq_true, if_false, logEngagement,
          updateCampaign, List.mem_map] at hr'
        obtain ⟨r, hr, hmap⟩ := hr'
        by_cases hc : (r.id == c.id) = true
        · have hrc : r = c :=
            List.inj_on_of_nodup_map hnd hr hcmem (beq_iff_eq.mp hc)
          rw [if_pos hc] at hmap
          subst hmap
          refine ⟨r, hr, rfl, ?_, rfl, rfl⟩
          rw [hrc]; exact Nat.le_succ _
        · rw [if_neg hc] at hmap
          subst hmap
          exact ⟨r, hr, rfl, le_refl _, rfl, rfl⟩

/-- Claim C4 (counterexample): the clicked-webhook handler overwrites
`clicked_at` on every event: after clicks at t=5 and t=9 the campaign
carries `clicked_at = some 9`, not the first-occurrence value `some 5`. -/
theorem C4_counterexample_clicked_at_overwritten :
    ((handleEmailClicked freshState "e1" "a@b.com"
        (some "https://example.com/p") 5).campaigns.map
          fun c => c.clicked_at) = [some 5] ∧
    ((handleEmailClicked (handleEmailClicked freshState "e1" "a@b.com"
        (some "https://example.com/p") 5) "e2" "a@b.com"
        (some "https://example.com/p") 9).campaigns.map
          fun c => c.clicked_at) = [some 9] ∧
    (some 9 : Option Nat) ≠ some 5 := by
  refine ⟨by decide, by decide, by decide⟩

/-- Claim C4 (amended): across the tracking endpoints and the webhook
handlers, `open_count` and `click_count` never decrease; `opened_at` is
written at most once on every path, and `clicked_at` at most once on the
click-redirect endpoint — but the clicked-webhook handler restamps
`clicked_at` on every event. Concretely, `trackOpen` twice on a fresh
campaign sets `opened_at` on the first call only and leaves
`open_count = 2`. -/
theorem C4_counts_monotone_first_timestamps (st : EngineState)
    (cid url emailId toAddr : String) (link : Option String) (t : Nat)
    (hnd : (st.campaigns.map Campaign.id).Nodup) :
    (∀ r' ∈ (trackOpen st cid t).campaigns, ∃ r ∈ st.campaigns,
      r'.id = r.id ∧ r.open_count ≤ r'.open_count ∧
      (∀ x, r.opened_at = some x → r'.opened_at = some x) ∧
      r'.click_count = r.click_count ∧ r'.clicked_at = r.clicked_at) ∧
    (∀ r' ∈ (trackClick st cid url t).campaigns, ∃ r ∈ st.campaigns,
      r'.id = r.id ∧ r.click_count ≤ r'.click_count ∧
      (∀ x, r.clicked_at = some x → r'.clicked_at = some x) ∧
      r'.open_count = r.open_count ∧ r'.opened_at = r.opened_at) ∧
    (∀ r' ∈ (handleEmailOpened st emailId toAddr t).campaigns,
      ∃ r ∈ st.campaigns,
        r'.id = r.id ∧ r.open_count ≤ r'.open_count ∧
        (∀ x, r.opened_at = some x → r'.opened_at = some x) ∧
        r'.click_count = r.click_count ∧ r'.clicked_at = r.clicked_at) ∧
    (∀ r' ∈ (handleEmailClicked st emailId toAddr link t).campaigns,
      ∃ r ∈ st.campaigns,
        r'.id = r.id ∧ r.click_count ≤ r'.click_count ∧
        r'.open_count = r.open_count ∧ r'.opened_at = r.opened_at) ∧
    ((trackOpen (trackOpen freshState "c1" 10) "c1" 20).campaigns.map
      fun c => (c.opened_at, c.open_count)) = [(some 10, 2)] :=
  ⟨trackOpen_per_row st cid t hnd, trackClick_per_row st cid url t hnd,
   handleEmailOpened_per_row st emailId toAddr t hnd,
   handleEmailClicked_per_row st emailId toAddr link t hnd, by decide⟩

/-- Witness for C4: the fresh one-campaign table has no duplicate ids, and
the open-pixel conclusion holds on it. -/
theorem C4_counts_monotone_first_timestamps_witness :
    ((freshState.campaigns.map Campaign.id).Nodup) ∧
    (∀ r' ∈ (trackOpen freshState "c1" 10).campaigns,
      ∃ r ∈ freshState.campaigns,
        r'.id = r.id ∧ r.open_count ≤ r'.open_count ∧
        (∀ x, r.opened_at = some x → r'.opened_at = some x) ∧
        r'.click_count = r.click_count ∧ r'.clicked_at = r.clicked_at) :=
  ⟨by decide,
   (C4_counts_monotone_first_timestamps freshState "c1" "u" "e1" "a@b.com"
     none 10 (by decide)).1⟩

/-- Claim C6: on every campaign whose recorded follow-up stamp is not
earlier than its send time (which is how the engine ever writes it), the
code's due-check equals the spec's "elapsed hours since the later of the
original send time and the last follow-up time, compared against the
incremental delay"; concretely, a `sent` campaign 73 hours after its send
is due (and the pending step is `follow_up_1`), while at 71 hours it is
not. -/
theorem C6_due_check (now : Nat) (c : Campaign)
    (h : ∀ l, c.last_followup_at = some l →
      c.sent_at.getD c.created_at ≤ l) :
    shouldSendFollowUp now c = dueCheckSpec now c ∧
    shouldSendFollowUp hour73 campaign73h = true ∧
    (defaultSequence[getCurrentSequenceStep campaign73h.status]?).map
      SequenceStep.type = some "follow_up_1" ∧
    shouldSendFollowUp hour73 campaign71h = false := by
  refine ⟨?_, by decide, by decide, by decide⟩
  unfold shouldSendFollowUp dueCheckSpec
  rcases hl : c.last_followup_at with _ | l
  · simp
  · have hle := h l hl
    simp [Nat.max_eq_right hle]

/-- Witness for C6: the 73-hour campaign has no follow-up stamp, so the
consistency hypothesis holds vacuously, and the equivalence follows. -/
theorem C6_due_check_witness :
    (∀ l, campaign73h.last_followup_at = some l →
      campaign73h.sent_at.getD campaign73h.created_at ≤ l) ∧
    shouldSendFollowUp hour73 campaign73h = dueCheckSpec hour73 campaign73h :=
  ⟨fun _ hl => Option.noConfusion hl,
   (C6_due_check hour73 campaign73h (fun _ hl => Option.noConfusion hl)).1⟩

/-- A list is a `isPrefixOf` itself followed by anything. -/
theorem isPrefixOf_self_append (p l : List Char) :
    p.isPrefixOf (p ++ l) = true := by
  rw [List.isPrefixOf_iff_prefix]
  exact List.prefix_append p l

/-- The empty pattern occurs in every list. -/
theorem listContains_nil_pat (l : List Char) : listContains [] l = true := by
  induction l with
  | nil => rfl
  | cons c t ih => simp [listContains]

/-- Occurrence is stable under consing on the left. -/
theorem listContains_cons (p s : List Char) (c : Char)
    (h : listContains p s = true) : listContains p (c :: s) = true := by
  simp [listContains, h]

/-- Occurrence is stable under appending on the left. -/
theorem listContains_append_left (p s : List Char) (l1 : List Char)
    (h : listContains p s = true) : listContains p (l1 ++ s) = true := by
  induction l1 with
  | nil => exact h
  | cons c t ih => exact listContains_cons p (t ++ s) c ih

/-- A pattern occurs in itself followed by anything. -/
theorem listContains_self_append (p l : List Char) :
    listContains p (p ++ l) = true := by
  cases p with
  | nil => exact listContains_nil_pat l
  | cons h t => simp [listContains, isPrefixOf_self_append]

set_option maxRecDepth 8000 in
/-- Claim C8: the link-instrumentation callback leaves any URL containing
`/api/track` (in particular every internal tracking link) or `calendly`
(the scheduling domain) unchanged; the click-rewriting is idempotent on
every URL, because a rewritten URL contains `/api/track`; and a body
whose only absolute URL is the scheduling link passes through
`addTracking` with that URL intact. -/
theorem C8_instrumentation_exempt_idempotent (base cid u : String)
    (h : strContains u "/api/track" = true ∨ strContains u "calendly" = true) :
    rewriteUrl base cid u = u ∧
    (∀ v : String,
      rewriteUrl base cid (rewriteUrl base cid v) = rewriteUrl base cid v) ∧
    addTracking trackingBaseUrl
        "Book https://calendly.com/maggieforbes/discovery now" (some "c1")
      = "Book https://calendly.com/maggieforbes/discovery now" ++
        trackingPixel trackingBaseUrl "c1" := by
  refine ⟨?_, ?_, by decide⟩
  · rcases h with h | h <;> simp [rewriteUrl, h]
  · intro v
    by_cases hv :
        (strContains v "/api/track" || strContains v "calendly") = true
    · have h1 : rewriteUrl base cid v = v := by
        unfold rewriteUrl
        rw [if_pos hv]
      rw [h1, h1]
    · have h2 : rewriteUrl base cid v
          = base ++ "/api/track/click/" ++ cid ++ "?url=" ++
            encodeURIComponent v := by
        unfold rewriteUrl
        rw [if_neg hv]
      have hocc : strContains
          (base ++ "/api/track/click/" ++ cid ++ "?url=" ++
            encodeURIComponent v) "/api/track" = true := by
        unfold strContains
        simp only [String.data_append, List.append_assoc]
        exact listContains_append_left "/api/track".data
          ("/api/track".data ++ ("/click/".data ++ (cid.data ++
            ("?url=".data ++ (encodeURIComponent v).data)))) base.data
          (listContains_self_append "/api/track".data
            ("/click/".data ++ (cid.data ++ ("?url=".data ++
              (encodeURIComponent v).data))))
      rw [h2]
      unfold rewriteUrl
      rw [if_pos (show _ = true by simp [hocc])]

/-- Witness for C8: the scheduling link satisfies the exemption
hypothesis and is returned unchanged. -/
theorem C8_instrumentation_exempt_idempotent_witness :
    (strContains calendlyLink "/api/track" = true ∨
      strContains calendlyLink "calendly" = true) ∧
    rewriteUrl trackingBaseUrl "c1" calendlyLink = calendlyLink :=
  ⟨Or.inr (by decide),
   (C8_instrumentation_exempt_idempotent trackingBaseUrl "c1" calendlyLink
     (Or.inr (by decide))).1⟩

/-- Claim C9 (counterexample): `replyRate` is not replied over the
previous funnel stage (clicked): on a window with 1 click, 1 reply and 2
deliveries the engine reports 50.0% (replied over *delivered*), while
replied-over-clicked would be 100.0%. -/
theorem C9_counterexample_replyRate_denominator :
    (getAnalytics 0 30 replyRateState).clicked = 1 ∧
    (getAnalytics 0 30 replyRateState).replied = 1 ∧
    (getAnalytics 0 30 replyRateState).rates.replyRate = "50.0%" ∧
    pctRate (getAnalytics 0 30 replyRateState).replied
      (getAnalytics 0 30 replyRateState).clicked = "100.0%" ∧
    ("50.0%" : String) ≠ "100.0%" := by
  refine ⟨by decide, by decide, by decide, by decide, by decide⟩

/-- Claim C9 (amended): every rate is a guarded percentage string with the
engine's actual denominators — delivered/sent, opened/delivered,
clicked/opened, replied/delivered, booked/replied, bounced/sent — with
`"0%"` on a zero denominator; `booked` counts windowed campaigns whose
status is `meeting_scheduled`; and the 10-campaign example yields
`deliveryRate = "50.0%"`. -/
theorem C9_analytics_rates (now days : Nat) (st : EngineState) :
    (getAnalytics now days st).rates.deliveryRate
      = pctRate (getAnalytics now days st).delivered
          (getAnalytics now days st).sent ∧
    (getAnalytics now days st).rates.openRate
      = pctRate (getAnalytics now days st).opened
          (getAnalytics now days st).delivered ∧
    (getAnalytics now days st).rates.clickRate
      = pctRate (getAnalytics now days st).clicked
          (getAnalytics now days st).opened ∧
    (getAnalytics now days st).rates.replyRate
      = pctRate (getAnalytics now days st).replied
          (getAnalytics now days st).delivered ∧
    (getAnalytics now days st).rates.bookingRate
      = pctRate (getAnalytics now days st).booked
          (getAnalytics now days st).replied ∧
    (getAnalytics now days st).rates.bounceRate
      = pctRate (getAnalytics now days st).bounced
          (getAnalytics now days st).sent ∧
    (getAnalytics now days st).booked
      = ((st.campaigns.filter fun c =>
          now - days * 24 * 60 * 60 * 1000 ≤ c.created_at).filter fun c =>
            c.status == "meeting_scheduled").length ∧
    (∀ n : Nat, pctRate n 0 = "0%") ∧
    (getAnalytics 0 30 funnelState).total = 10 ∧
    (getAnalytics 0 30 funnelState).sent = 8 ∧
    (getAnalytics 0 30 funnelState).delivered = 4 ∧
    (getAnalytics 0 30 funnelState).rates.deliveryRate = "50.0%" := by
  refine ⟨rfl, rfl, rfl, rfl, rfl, rfl, rfl, fun n => rfl,
    by decide, by decide, by decide, by decide⟩

/-- A campaign the sequencer query accepts has none of the terminal
timestamps. -/
theorem eligible_not_terminal (c : Campaign) (h : followUpEligible c = true) :
    terminalB c = false := by
  simp only [followUpEligible, Bool.and_eq_true] at h
  obtain ⟨⟨⟨-, h1⟩, h2⟩, h3⟩ := h
  simp only [Option.isNone_iff_eq_none] at h1 h2 h3
  simp [terminalB, h1, h2, h3]

/-- `sendEmail` either makes no provider call or logs exactly one, for
its own campaign id. -/
theorem sendEmail_calls_shape (pr : Nat → ProviderResult) (st : EngineState)
    (toAddr subject body : String) (cid : Option String) :
    ((sendEmail pr st toAddr subject body cid).1).providerCalls
        = st.providerCalls ∨
    ((sendEmail pr st toAddr subject body cid).1).providerCalls
        = st.providerCalls ++ [⟨toAddr, subject, cid⟩] := by
  unfold sendEmail
  split
  · exact Or.inl rfl
  · dsimp only
    split <;> exact Or.inr rfl

/-- A send for a different campaign never adds provider calls attributed
to `cid`. -/
theorem callsTo_sendEmail (pr : Nat → ProviderResult) (st : EngineState)
    (toAddr subject body : String) (campaignId : Option String) (cid : String)
    (hne : campaignId ≠ some cid) :
    callsTo cid (sendEmail pr st toAddr subject body campaignId).1
      = callsTo cid st := by
  rcases sendEmail_calls_shape pr st toAddr subject body campaignId with h | h <;>
    unfold callsTo <;> rw [h]
  rw [List.filter_append]
  simp [beq_eq_false_iff_ne.mpr hne]

/-- `sendNextFollowUp` maps each row to a row with the same id and the
same three terminal timestamps. -/
theorem sendNextFollowUp_rows (pr : Nat → ProviderResult) (now : Nat)
    (st : EngineState) (c : Campaign) :
    ∀ r' ∈ (sendNextFollowUp pr now st c).campaigns, ∃ r ∈ st.campaigns,
      r'.id = r.id ∧ r'.replied_at = r.replied_at ∧
      r'.bounced_at = r.bounced_at ∧ r'.unsubscribed_at = r.unsubscribed_at := by
  intro r' hr'
  unfold sendNextFollowUp at hr'
  dsimp only at hr'
  rcases hstep : defaultSequence[getCurrentSequenceStep c.status]? with _ | step
  · rw [hstep] at hr'
    exact ⟨r', hr', rfl, rfl, rfl, rfl⟩
  · rw [hstep] at hr'
    dsimp only at hr'
    simp only [storeOutgoingEmail, updateCampaign] at hr'
    rw [sendEmail_campaigns] at hr'
    obtain ⟨r, hr, hmap⟩ := List.mem_map.mp hr'
    by_cases hc : (r.id == c.id) = true
    · rw [if_pos hc] at hmap
      subst hmap
      exact ⟨r, hr, rfl, rfl, rfl, rfl⟩
    · rw [if_neg hc] at hmap
      subst hmap
      exact ⟨r, hr, rfl, rfl, rfl, rfl⟩

/-- A follow-up for a different campaign adds no provider calls and no
conversation rows attributed to `cid`. -/
theorem sendNextFollowUp_preserves (pr : Nat → ProviderResult) (now : Nat)
    (st : EngineState) (c : Campaign) (cid : String) (hne : c.id ≠ cid) :
    callsTo cid (sendNextFollowUp pr now st c) = callsTo cid st ∧
    convosTo cid (sendNextFollowUp pr now st c) = convosTo cid st := by
  unfold sendNextFollowUp
  dsimp only
  rcases hstep : defaultSequence[getCurrentSequenceStep c.status]? with _ | step
  · exact ⟨rfl, rfl⟩
  · dsimp only
    constructor
    · show callsTo cid (storeOutgoingEmail _ _ _ _ _ _) = _
      unfold callsTo storeOutgoingEmail updateCampaign
      dsimp only
      exact callsTo_sendEmail pr st c.recipient_email _ _ (some c.id) cid
        (fun h => hne (Option.some.inj h))
    · show convosTo cid (storeOutgoingEmail _ _ _ _ _ _) = _
      unfold convosTo storeOutgoingEmail updateCampaign
      dsimp only
      rw [sendEmail_conversations, List.filter_append]
      simp [beq_eq_false_iff_ne.mpr hne]

/-- The sweep loop, over a snapshot that avoids `cid`, keeps every
`cid`-row terminal and attributes nothing new to `cid`. -/
theorem sweep_foldl_preserves (pr : Nat → ProviderResult) (now : Nat)
    (cid : String) :
    ∀ (l : List Campaign) (acc : EngineState × Nat),
      (∀ c ∈ l, c.id ≠ cid) →
      (∀ r ∈ acc.1.campaigns, r.id = cid → terminalB r = true) →
      (∀ r ∈ (l.foldl (sweepStep pr now) acc).1.campaigns,
        r.id = cid → terminalB r = true) ∧
      callsTo cid (l.foldl (sweepStep pr now) acc).1 = callsTo cid acc.1 ∧
      convosTo cid (l.foldl (sweepStep pr now) acc).1 = convosTo cid acc.1 := by
  intro l
  induction l with
  | nil => intro acc _ hterm; exact ⟨hterm, rfl, rfl⟩
  | cons a t ih =>
    intro acc hne hterm
    rw [List.foldl_cons]
    have hane : a.id ≠ cid := hne a (List.mem_cons_self a t)
    have htne : ∀ c ∈ t, c.id ≠ cid := fun c hc => hne c (List.mem_cons_of_mem a hc)
    have hstep : (∀ r ∈ (sweepStep pr now acc a).1.campaigns,
        r.id = cid → terminalB r = true) ∧
        callsTo cid (sweepStep pr now acc a).1 = callsTo cid acc.1 ∧
        convosTo cid (sweepStep pr now acc a).1 = convosTo cid acc.1 := by
      unfold sweepStep
      split
      · refine ⟨?_, ?_, ?_⟩
        · intro r hr hid
          obtain ⟨r0, hr0, hid0, hrep, hbou, huns⟩ :=
            sendNextFollowUp_rows pr now acc.1 a r hr
          have := hterm r0 hr0 (hid0 ▸ hid)
          rw [terminalB] at this ⊢
          rw [hrep, hbou, huns]
          exact this
        · exact (sendNextFollowUp_preserves pr now acc.1 a cid hane).1
        · exact (sendNextFollowUp_preserves pr now acc.1 a cid hane).2
      · exact ⟨hterm, rfl, rfl⟩
    obtain ⟨h1, h2, h3⟩ := ih (sweepStep pr now acc a) htne hstep.1
    exact ⟨h1, h2.trans hstep.2.1, h3.trans hstep.2.2⟩

/-- One whole sweep preserves terminality of all `cid`-rows and adds no
sends or conversation rows for `cid`. -/
theorem processFollowUpQueue_preserves (pr : Nat → ProviderResult) (now : Nat)
    (st : EngineState) (cid : String)
    (hterm : ∀ r ∈ st.campaigns, r.id = cid → terminalB r = true) :
    (∀ r ∈ (processFollowUpQueue pr now st).campaigns,
      r.id = cid → terminalB r = true) ∧
    callsTo cid (processFollowUpQueue pr now st) = callsTo cid st ∧
    convosTo cid (processFollowUpQueue pr now st) = convosTo cid st := by
  have hne : ∀ c ∈ st.campaigns.filter followUpEligible, c.id ≠ cid := by
    intro c hc heq
    have hcmem := List.mem_of_mem_filter hc
    have helig := List.of_mem_filter hc
    have hT := hterm c hcmem heq
    rw [eligible_not_terminal c helig] at hT
    exact Bool.false_ne_true hT
  obtain ⟨h1, h2, h3⟩ :=
    sweep_foldl_preserves pr now cid (st.campaigns.filter followUpEligible)
      (st, 0) hne hterm
  unfold processFollowUpQueue
  exact ⟨h1, h2, h3⟩

/-- Iterated sweeps preserve terminality and attribute nothing to `cid`. -/
theorem sweepN_preserves (pr : Nat → ProviderResult) (nows : Nat → Nat)
    (cid : String) :
    ∀ (k : Nat) (st : EngineState),
      (∀ r ∈ st.campaigns, r.id = cid → terminalB r = true) →
      (∀ r ∈ (processFollowUpQueueN pr nows k st).campaigns,
        r.id = cid → terminalB r = true) ∧
      callsTo cid (processFollowUpQueueN pr nows k st) = callsTo cid st ∧
      convosTo cid (processFollowUpQueueN pr nows k st) = convosTo cid st := by
  intro k
  induction k with
  | zero => intro st hterm; exact ⟨hterm, rfl, rfl⟩
  | succ k ih =>
    intro st hterm
    obtain ⟨h1, h2, h3⟩ := processFollowUpQueue_preserves pr (nows k) st cid hterm
    obtain ⟨g1, g2, g3⟩ := ih (processFollowUpQueue pr (nows k) st) h1
    exact ⟨g1, g2.trans h2, g3.trans h3⟩

/-- A campaign id whose rows are all terminal is never in the
sequencer's selection. -/
theorem terminal_not_selected (st : EngineState) (cid : String)
    (hterm : ∀ r ∈ st.campaigns, r.id = cid → terminalB r = true) :
    cid ∉ followUpSelected st := by
  intro hmem
  unfold followUpSelected at hmem
  obtain ⟨c, hc, hcid⟩ := List.mem_map.mp hmem
  have hcmem := List.mem_of_mem_filter hc
  have helig := List.of_mem_filter hc
  have hT := hterm c hcmem hcid
  rw [eligible_not_terminal c helig] at hT
  exact Bool.false_ne_true hT

/-- Claim C1: if every row of a campaign id has one of `replied_at`,
`bounced_at`, `unsubscribed_at` set, then over any number of sequencer
sweeps (any provider behaviour, any sweep times) that campaign is never
selected by the queue query, receives no provider send, and gains no
conversation row. -/
theorem C1_sequencer_skips_terminal (pr : Nat → ProviderResult)
    (nows : Nat → Nat) (st : EngineState) (cid : String)
    (hterm : ∀ r ∈ st.campaigns, r.id = cid → terminalB r = true) (k : Nat) :
    cid ∉ followUpSelected (processFollowUpQueueN pr nows k st) ∧
    callsTo cid (processFollowUpQueueN pr nows k st) = callsTo cid st ∧
    convosTo cid (processFollowUpQueueN pr nows k st) = convosTo cid st := by
  obtain ⟨h1, h2, h3⟩ := sweepN_preserves pr nows cid k st hterm
  exact ⟨terminal_not_selected _ cid h1, h2, h3⟩

/-- Witness for C1: a replied campaign, two sweeps at the 73-hour mark. -/
theorem C1_sequencer_skips_terminal_witness :
    (∀ r ∈ repliedState.campaigns, r.id = "c1" → terminalB r = true) ∧
    ("c1" ∉ followUpSelected
        (processFollowUpQueueN oracleOk sweepTimes 2 repliedState) ∧
      callsTo "c1" (processFollowUpQueueN oracleOk sweepTimes 2 repliedState)
        = callsTo "c1" repliedState ∧
      convosTo "c1" (processFollowUpQueueN oracleOk sweepTimes 2 repliedState)
        = convosTo "c1" repliedState) :=
  ⟨by decide,
   C1_sequencer_skips_terminal oracleOk sweepTimes repliedState "c1"
     (by decide) 2⟩
